import Mathlib

/-!
Shallow embedding of the outbound-registry configuration normalizer and the
proxy API handlers of clash-rs, covering the code in
src/clash_lib/src/config/internal/config.rs and
src/clash_lib/src/app/api/handlers/proxy.rs.

Rust strings are modelled as lists of characters; HashMap String V is an
association list with last-write-wins insert; fallible Rust code returns
Except; code that may panic returns a POutcome with a panicked case.
-/

set_option linter.unusedVariables false

namespace ClashRs

/-- Rust strings are modelled as lists of characters. -/
abbrev Str := List Char

/-- Conversion of a Lean string literal into the model type. -/
def strOf (s : String) : Str := s.toList

/-- Reserved outbound name of the direct pseudo-backend (PROXY_DIRECT). -/
def PROXY_DIRECT : Str := strOf "DIRECT"

/-- Reserved outbound name of the reject pseudo-backend (PROXY_REJECT). -/
def PROXY_REJECT : Str := strOf "REJECT"

/-- The crate error type, restricted to the variant the inspected code
produces. -/
inductive Error where
  | InvalidConfig (msg : Str)
deriving DecidableEq, Repr

/-- Outcome of running a Rust expression that may return Ok, return Err
through the question mark operator, or panic (unwrap or expect). -/
inductive POutcome (α : Type) where
  | ok (a : α)
  | err (e : Error)
  | panicked (msg : Str)
deriving DecidableEq, Repr

/-- HashMap String V, modelled as an association list whose insert replaces
the value of an existing key and otherwise appends. -/
abbrev HMap (α : Type) : Type := List (Str × α)

/-- Keys of the map, in insertion order. -/
def HMap.keys {α : Type} (m : HMap α) : List Str := m.map Prod.fst

/-- HashMap::contains_key. -/
def HMap.contains_key {α : Type} (m : HMap α) (k : Str) : Bool :=
  decide (k ∈ m.keys)

/-- HashMap::insert: replace the value when the key is present, append
otherwise. -/
def HMap.insert {α : Type} (m : HMap α) (k : Str) (v : α) : HMap α :=
  if k ∈ m.keys then m.map (fun p => if p.1 = k then (k, v) else p)
  else m ++ [(k, v)]

/-- OutboundProxyProtocol: the parsed form of one single backend. Direct and
Reject are the built-in pseudo-backends. User protocols are kept opaque apart
from their name; src/config/internal/proxy.rs is outside the inspected files.
Modelled from the spec: a BackendHandle is an opaque named unit of forwarding
capability. -/
inductive OutboundProxyProtocol where
  | Direct
  | Reject
  | UserProtocol (userName : Str)
deriving DecidableEq, Repr

/-- Name of a parsed protocol: the reserved names for the pseudo-backends,
the declared name otherwise. -/
def OutboundProxyProtocol.name : OutboundProxyProtocol → Str
  | .Direct => PROXY_DIRECT
  | .Reject => PROXY_REJECT
  | .UserProtocol n => n

/-- A parsed proxy group, opaque apart from its name. Modelled from the spec:
a group is a named aggregate exposing one logical outbound identity. -/
structure OutboundGroup where
  name : Str
deriving DecidableEq, Repr

/-- OutboundProxy: single backend or group. -/
inductive OutboundProxy where
  | ProxyServer (p : OutboundProxyProtocol)
  | ProxyGroup (g : OutboundGroup)
deriving DecidableEq, Repr

/-- OutboundProxy::name. -/
def OutboundProxy.name : OutboundProxy → Str
  | .ProxyServer p => p.name
  | .ProxyGroup g => g.name

/-- A typed rule; its structure lives outside the inspected files and is kept
opaque. -/
structure RuleType where
  payload : Str
deriving DecidableEq, Repr

/-- A parsed proxy provider, opaque. -/
structure OutboundProxyProvider where
  payload : Str
deriving DecidableEq, Repr

/-- auth::User. -/
structure User where
  username : Str
  password : Str
deriving DecidableEq, Repr

/-- Raw declaration of one proxy, opaque to the normalizer. -/
abbrev ProxyDef := Str

/-- Raw declaration of one group: the mapping the normalizer reads, of which
only the name field is examined directly; the rest is opaque. -/
structure GroupDef where
  nameField : Option Str
  body : Str
deriving DecidableEq, Repr

/-- Raw declaration of one proxy provider, opaque. -/
abbrev ProviderDef := Str

/-- def::Config restricted to the fields the inspected normalization code
reads for rules, users, proxies, groups and providers. The remaining fields
(ports, bind address, dns, tun, profile) are parsed independently of these
sections; the embedding covers configurations whose remaining fields are
valid. -/
structure RawConfig where
  rule : List Str
  authentication : List Str
  proxy : List ProxyDef
  proxy_group : List GroupDef
  proxy_provider : Option (List (Str × ProviderDef))

/-- The protocol, group, rule and provider parsers live outside the inspected
files, so the normalizer is parametric in them. Modelled from the spec: each
parses one raw entry into its typed form or fails; the Str error components
stand for the displayed form of the underlying errors. -/
structure Parsers where
  parseProxy : ProxyDef → Except Error OutboundProxyProtocol
  parseGroup : GroupDef → Except Str OutboundGroup
  parseRule : Str → Except Str RuleType
  parseProvider : ProviderDef → Except Str OutboundProxyProvider

/-- Message of the duplicate-name rejection in the proxies fold. -/
def duplicatedProxyNameMsg (name : Str) : Str :=
  strOf "duplicated proxy name: " ++ name

/-- Message wrapping a group parse failure when the mapping has a name. -/
def proxyGroupErrMsg (name x : Str) : Str :=
  strOf "proxy group: " ++ name ++ strOf ": " ++ x

/-- Message of a group mapping with no name field. -/
def proxyGroupNameMissingMsg : Str := strOf "proxy group name missing"

/-- Message wrapping a provider parse failure. -/
def invalidProviderMsg (name x : Str) : Str :=
  strOf "invalid proxy provider " ++ name ++ strOf ": " ++ x

/-- Message of the expect call that guards the provider fold. -/
def providerPanicMsg : Str := strOf "proxy provider parse error"

/-- Message of Option::unwrap on None. -/
def unwrapNoneMsg : Str := strOf "called Option::unwrap on a None value"

/-- Split a string at the first occurrence of sep: the part before it, and,
when sep occurs, the part after it. -/
def splitFirst (sep : Char) : Str → Str × Option Str
  | [] => ([], none)
  | c :: rest =>
    if c = sep then ([], some rest)
    else
      let r := splitFirst sep rest
      (c :: r.1, r.2)

/-- Rust splitn(2, sep), materialised as the list of pieces the iterator
yields. -/
def splitn2 (sep : Char) (s : Str) : List Str :=
  match splitFirst sep s with
  | (pre, none) => [pre]
  | (pre, some post) => [pre, post]

/-- One authentication entry parsed as in the users field initialiser: the
first piece is unwrapped (panics were it absent), the second defaults to
empty. -/
def parseUser (u : Str) : POutcome User :=
  let parts := splitn2 ':' u
  match parts.head? with
  | none => .panicked unwrapNoneMsg
  | some username => .ok ⟨username, ((parts.drop 1).head?).getD []⟩

/-- The users field initialiser: map parseUser over the authentication list,
propagating a panic. -/
def usersOf : List Str → POutcome (List User)
  | [] => .ok []
  | u :: rest =>
    match parseUser u with
    | .ok usr =>
      match usersOf rest with
      | .ok users => .ok (usr :: users)
      | .err e => .err e
      | .panicked m => .panicked m
    | .err e => .err e
    | .panicked m => .panicked m

/-- The rules field initialiser: parse every raw rule string; the first
failure aborts the collect with an InvalidConfig error holding the displayed
parse error. -/
def rulesOf (parseRule : Str → Except Str RuleType) :
    List Str → Except Error (List RuleType)
  | [] => .ok []
  | x :: rest =>
    match parseRule x with
    | .error e => .error (.InvalidConfig e)
    | .ok r =>
      match rulesOf parseRule rest with
      | .error e => .error e
      | .ok rs => .ok (r :: rs)

/-- Initial accumulator of the proxies fold: the two reserved entries. -/
def initialProxies : HMap OutboundProxy :=
  [(PROXY_DIRECT, .ProxyServer .Direct), (PROXY_REJECT, .ProxyServer .Reject)]

/-- The proxies field initialiser: try_fold over the user-declared proxies,
rejecting a name already present in the accumulator and pushing each accepted
name onto proxy_names. -/
def proxiesFold (parseProxy : ProxyDef → Except Error OutboundProxyProtocol) :
    List ProxyDef → HMap OutboundProxy → List Str →
    Except Error (HMap OutboundProxy × List Str)
  | [], rv, names => .ok (rv, names)
  | x :: rest, rv, names =>
    match parseProxy x with
    | .error e => .error e
    | .ok p =>
      let proxy := OutboundProxy.ProxyServer p
      let name := proxy.name
      if rv.contains_key name then
        .error (.InvalidConfig (duplicatedProxyNameMsg name))
      else
        proxiesFold parseProxy rest (rv.insert name proxy) (names ++ [name])

/-- The proxy_groups field initialiser: try_fold over the group mappings into
an empty map; a parse failure is wrapped with the group name when the mapping
has one; an accepted group is pushed onto proxy_names and inserted with no
duplicate-name check. -/
def groupsFold (parseGroup : GroupDef → Except Str OutboundGroup) :
    List GroupDef → HMap OutboundProxy → List Str →
    Except Error (HMap OutboundProxy × List Str)
  | [], rv, names => .ok (rv, names)
  | m :: rest, rv, names =>
    match parseGroup m with
    | .error x =>
      match m.nameField with
      | some name => .error (.InvalidConfig (proxyGroupErrMsg name x))
      | none => .error (.InvalidConfig proxyGroupNameMissingMsg)
    | .ok g =>
      groupsFold parseGroup rest
        (rv.insert (OutboundProxy.ProxyGroup g).name (.ProxyGroup g))
        (names ++ [(OutboundProxy.ProxyGroup g).name])

/-- The proxy_providers fold: a parse failure is wrapped with the provider
name; accepted providers are inserted with no duplicate check. -/
def providersFold (parseProvider : ProviderDef → Except Str OutboundProxyProvider) :
    List (Str × ProviderDef) → HMap OutboundProxyProvider →
    Except Error (HMap OutboundProxyProvider)
  | [], rv => .ok rv
  | (name, body) :: rest, rv =>
    match parseProvider body with
    | .error x => .error (.InvalidConfig (invalidProviderMsg name x))
    | .ok provider => providersFold parseProvider rest (rv.insert name provider)

/-- internal::Config restricted to the claim-relevant fields. -/
structure Config where
  rules : List RuleType
  users : List User
  proxy_names : List Str
  proxies : HMap OutboundProxy
  proxy_groups : HMap OutboundProxy
  proxy_providers : HMap OutboundProxyProvider
deriving DecidableEq, Repr

/-- TryFrom of def::Config for Config: the normalizer. The proxy_names vector
starts with the two reserved names; field initialisers run in source order;
an Err from any section aborts through the question mark operator; the
proxy_provider section panics on a parse error because the source calls
expect on the fold result instead of propagating it. -/
def tryFrom (P : Parsers) (c : RawConfig) : POutcome Config :=
  match rulesOf P.parseRule c.rule with
  | .error e => .err e
  | .ok rules =>
    match usersOf c.authentication with
    | .err e => .err e
    | .panicked m => .panicked m
    | .ok users =>
      match proxiesFold P.parseProxy c.proxy initialProxies
          [PROXY_DIRECT, PROXY_REJECT] with
      | .error e => .err e
      | .ok (proxies, names1) =>
        match groupsFold P.parseGroup c.proxy_group [] names1 with
        | .error e => .err e
        | .ok (proxy_groups, names2) =>
          match c.proxy_provider with
          | none => .ok ⟨rules, users, names2, proxies, proxy_groups, []⟩
          | some m =>
            match providersFold P.parseProvider m [] with
            | .error e => .panicked providerPanicMsg
            | .ok provs => .ok ⟨rules, users, names2, proxies, proxy_groups, provs⟩

/-- Names of the user-declared single backends in declaration order, as the
parser yields them; an entry failing to parse contributes nothing (an
accepted configuration has no such entry). -/
def declaredProxyNames (parseProxy : ProxyDef → Except Error OutboundProxyProtocol)
    (xs : List ProxyDef) : List Str :=
  xs.filterMap (fun x =>
    ((parseProxy x).toOption).map (fun p => (OutboundProxy.ProxyServer p).name))

/-- Names of the user-declared groups in declaration order, as the parser
yields them. -/
def declaredGroupNames (parseGroup : GroupDef → Except Str OutboundGroup)
    (xs : List GroupDef) : List Str :=
  xs.filterMap (fun m =>
    ((parseGroup m).toOption).map (fun g => (OutboundProxy.ProxyGroup g).name))

/-! Helper lemmas. -/

theorem splitFirst_fst (sep : Char) (u : Str) :
    (splitFirst sep u).1 = u.takeWhile (fun ch => ch ≠ sep) := by
  induction u with
  | nil => rfl
  | cons c rest ih =>
    by_cases h : c = sep
    · simp [splitFirst, h, List.takeWhile_cons]
    · simp [splitFirst, h, List.takeWhile_cons, ih]

theorem splitFirst_snd_getD (sep : Char) (u : Str) :
    ((splitFirst sep u).2).getD [] = (u.dropWhile (fun ch => ch ≠ sep)).drop 1 := by
  induction u with
  | nil => rfl
  | cons c rest ih =>
    by_cases h : c = sep
    · simp [splitFirst, h, List.dropWhile_cons]
    · simp [splitFirst, h, List.dropWhile_cons, ih]

theorem splitn2_head (sep : Char) (u : Str) :
    (splitn2 sep u).head? = some (splitFirst sep u).1 := by
  unfold splitn2
  rcases h : splitFirst sep u with ⟨pre, post⟩
  cases post <;> simp

theorem splitn2_second (sep : Char) (u : Str) :
    ((splitn2 sep u).drop 1).head? = (splitFirst sep u).2 := by
  unfold splitn2
  rcases h : splitFirst sep u with ⟨pre, post⟩
  cases post <;> simp

/-- parseUser never panics: the username is the text before the first colon
(the whole entry if there is none) and the password the text after it (empty
if there is none). -/
theorem parseUser_eq (u : Str) :
    parseUser u = .ok ⟨u.takeWhile (fun ch => ch ≠ ':'),
      (u.dropWhile (fun ch => ch ≠ ':')).drop 1⟩ := by
  have h1 := splitn2_head ':' u
  have h2 := splitn2_second ':' u
  unfold parseUser
  simp only [h1, h2, splitFirst_fst, splitFirst_snd_getD]

/-- usersOf never fails or panics. -/
theorem usersOf_ok (us : List Str) : ∃ out, usersOf us = .ok out := by
  induction us with
  | nil => exact ⟨[], rfl⟩
  | cons u rest ih =>
    obtain ⟨out, hout⟩ := ih
    refine ⟨⟨u.takeWhile (fun ch => ch ≠ ':'),
      (u.dropWhile (fun ch => ch ≠ ':')).drop 1⟩ :: out, ?_⟩
    simp [usersOf, parseUser_eq u, hout]

/-- When every rule parses, rulesOf succeeds. -/
theorem rulesOf_ok (parseRule : Str → Except Str RuleType) (rs : List Str)
    (h : ∀ r ∈ rs, (parseRule r).isOk) :
    ∃ out, rulesOf parseRule rs = .ok out := by
  induction rs with
  | nil => exact ⟨[], rfl⟩
  | cons x rest ih =>
    obtain ⟨out, hout⟩ := ih (fun r hr => h r (List.mem_cons_of_mem _ hr))
    have hx := h x (List.mem_cons_self _ _)
    rcases hp : parseRule x with e | r
    · rw [hp] at hx; simp [Except.isOk, Except.toBool] at hx
    · exact ⟨r :: out, by simp [rulesOf, hp, hout]⟩

/-- When some rule fails to parse, rulesOf fails with the InvalidConfig
wrapping of the parse error of a failing rule. -/
theorem rulesOf_err (parseRule : Str → Except Str RuleType) (rs : List Str)
    (r : Str) (hr : r ∈ rs) (he : ¬ (parseRule r).isOk) :
    ∃ bad e, bad ∈ rs ∧ parseRule bad = .error e ∧
      rulesOf parseRule rs = .error (.InvalidConfig e) := by
  induction rs with
  | nil => cases hr
  | cons x rest ih =>
    rcases hp : parseRule x with e | rv
    · exact ⟨x, e, List.mem_cons_self _ _, hp, by simp [rulesOf, hp]⟩
    · have hrrest : r ∈ rest := by
        rcases List.mem_cons.mp hr with h1 | h1
        · subst h1; rw [hp] at he; simp [Except.isOk, Except.toBool] at he
        · exact h1
      obtain ⟨bad, e, hmem, hbe, hre⟩ := ih hrrest
      exact ⟨bad, e, List.mem_cons_of_mem _ hmem, hbe, by simp [rulesOf, hp, hre]⟩

theorem HMap.keys_insert_of_not_mem {α : Type} (m : HMap α) (k : Str) (v : α)
    (h : ¬ k ∈ HMap.keys m) : HMap.keys (HMap.insert m k v) = HMap.keys m ++ [k] := by
  unfold HMap.insert
  rw [if_neg h]
  unfold HMap.keys
  simp

theorem initialProxies_keys :
    HMap.keys initialProxies = [PROXY_DIRECT, PROXY_REJECT] := rfl

/-- Unfolding of declaredProxyNames at a successfully parsed head. -/
theorem declaredProxyNames_cons_ok
    (parseProxy : ProxyDef → Except Error OutboundProxyProtocol)
    (x : ProxyDef) (rest : List ProxyDef) (p : OutboundProxyProtocol)
    (hp : parseProxy x = .ok p) :
    declaredProxyNames parseProxy (x :: rest) =
      (OutboundProxy.ProxyServer p).name :: declaredProxyNames parseProxy rest := by
  simp [declaredProxyNames, hp, Except.toOption]

/-- Characterisation of a successful proxies fold: names are appended in
declaration order, the key set grows by exactly those names, and key
distinctness is preserved. -/
theorem proxiesFold_ok (parseProxy : ProxyDef → Except Error OutboundProxyProtocol)
    (xs : List ProxyDef) :
    ∀ (rv : HMap OutboundProxy) (names : List Str)
      (rv2 : HMap OutboundProxy) (names2 : List Str),
    proxiesFold parseProxy xs rv names = .ok (rv2, names2) →
    names2 = names ++ declaredProxyNames parseProxy xs ∧
    HMap.keys rv2 = HMap.keys rv ++ declaredProxyNames parseProxy xs ∧
    ((HMap.keys rv).Nodup → (HMap.keys rv2).Nodup) := by
  induction xs with
  | nil =>
    intro rv names rv2 names2 h
    simp only [proxiesFold, Except.ok.injEq, Prod.mk.injEq] at h
    obtain ⟨h1, h2⟩ := h
    subst h1; subst h2
    simp [declaredProxyNames]
  | cons x rest ih =>
    intro rv names rv2 names2 h
    rcases hp : parseProxy x with e | p
    · simp [proxiesFold, hp] at h
    · simp only [proxiesFold, hp] at h
      by_cases hmem : (OutboundProxy.ProxyServer p).name ∈ HMap.keys rv
      · simp [HMap.contains_key, hmem] at h
      · have hck : HMap.contains_key rv (OutboundProxy.ProxyServer p).name = false := by
          simp [HMap.contains_key, hmem]
        rw [hck] at h
        simp only [Bool.false_eq_true, if_false] at h
        obtain ⟨h1, h2, h3⟩ := ih _ _ _ _ h
        have hkeys := HMap.keys_insert_of_not_mem rv
          (OutboundProxy.ProxyServer p).name (.ProxyServer p) hmem
        rw [declaredProxyNames_cons_ok parseProxy x rest p hp]
        refine ⟨by rw [h1]; simp, by rw [h2, hkeys]; simp, ?_⟩
        intro hrv
        apply h3
        rw [hkeys, List.nodup_append]
        refine ⟨hrv, List.nodup_singleton _, ?_⟩
        intro a ha hb
        rw [List.mem_singleton] at hb
        subst hb
        exact hmem ha

/-- A successful proxies fold certifies that the accumulator keys and the
declared backend names are jointly pairwise distinct: the contains_key check
rejected every collision (a fold that silently overwrote would not give
this). -/
theorem proxiesFold_ok_names_nodup
    (parseProxy : ProxyDef → Except Error OutboundProxyProtocol)
    (xs : List ProxyDef) :
    ∀ (rv : HMap OutboundProxy) (names : List Str)
      (rv2 : HMap OutboundProxy) (names2 : List Str),
    proxiesFold parseProxy xs rv names = .ok (rv2, names2) →
    (HMap.keys rv).Nodup →
    (HMap.keys rv ++ declaredProxyNames parseProxy xs).Nodup := by
  induction xs with
  | nil =>
    intro rv names rv2 names2 h hrv
    simpa [declaredProxyNames] using hrv
  | cons x rest ih =>
    intro rv names rv2 names2 h hrv
    rcases hp : parseProxy x with e | p
    · simp [proxiesFold, hp] at h
    · simp only [proxiesFold, hp] at h
      by_cases hmem : (OutboundProxy.ProxyServer p).name ∈ HMap.keys rv
      · simp [HMap.contains_key, hmem] at h
      · have hck : HMap.contains_key rv (OutboundProxy.ProxyServer p).name = false := by
          simp [HMap.contains_key, hmem]
        rw [hck] at h
        simp only [Bool.false_eq_true, if_false] at h
        have hkeys := HMap.keys_insert_of_not_mem rv
          (OutboundProxy.ProxyServer p).name (.ProxyServer p) hmem
        have hrv2 : (HMap.keys (HMap.insert rv (OutboundProxy.ProxyServer p).name
            (.ProxyServer p))).Nodup := by
          rw [hkeys, List.nodup_append]
          refine ⟨hrv, List.nodup_singleton _, ?_⟩
          intro a ha hb
          rw [List.mem_singleton] at hb
          subst hb
          exact hmem ha
        have hrec := ih _ _ _ _ h hrv2
        rw [hkeys] at hrec
        rw [declaredProxyNames_cons_ok parseProxy x rest p hp]
        simpa using hrec

/-- When every proxy parses but the accumulated names are not distinct, the
proxies fold fails with the duplicated-name error. -/
theorem proxiesFold_dup (parseProxy : ProxyDef → Except Error OutboundProxyProtocol)
    (xs : List ProxyDef) :
    ∀ (rv : HMap OutboundProxy) (names : List Str),
    (∀ x ∈ xs, (parseProxy x).isOk) →
    (HMap.keys rv).Nodup →
    ¬ (HMap.keys rv ++ declaredProxyNames parseProxy xs).Nodup →
    ∃ n, proxiesFold parseProxy xs rv names =
      .error (.InvalidConfig (duplicatedProxyNameMsg n)) := by
  induction xs with
  | nil =>
    intro rv names _ hrv hdup
    exact absurd (by simpa [declaredProxyNames] using hrv) hdup
  | cons x rest ih =>
    intro rv names hall hrv hdup
    rcases hp : parseProxy x with e | p
    · have hx := hall x (List.mem_cons_self _ _)
      rw [hp] at hx; simp [Except.isOk, Except.toBool] at hx
    · rw [declaredProxyNames_cons_ok parseProxy x rest p hp] at hdup
      by_cases hmem : (OutboundProxy.ProxyServer p).name ∈ HMap.keys rv
      · exact ⟨(OutboundProxy.ProxyServer p).name,
          by simp [proxiesFold, hp, HMap.contains_key, hmem]⟩
      · have hkeys := HMap.keys_insert_of_not_mem rv
          (OutboundProxy.ProxyServer p).name (.ProxyServer p) hmem
        have hrv2 : (HMap.keys (HMap.insert rv (OutboundProxy.ProxyServer p).name
            (.ProxyServer p))).Nodup := by
          rw [hkeys, List.nodup_append]
          refine ⟨hrv, List.nodup_singleton _, ?_⟩
          intro a ha hb
          rw [List.mem_singleton] at hb
          subst hb
          exact hmem ha
        have hdup2 : ¬ (HMap.keys (HMap.insert rv (OutboundProxy.ProxyServer p).name
            (.ProxyServer p)) ++ declaredProxyNames parseProxy rest).Nodup := by
          rw [hkeys]
          intro hcon
          apply hdup
          simpa using hcon
        obtain ⟨m, hm⟩ := ih _ (names ++ [(OutboundProxy.ProxyServer p).name])
          (fun y hy => hall y (List.mem_cons_of_mem _ hy)) hrv2 hdup2
        exact ⟨m, by simp [proxiesFold, hp, HMap.contains_key, hmem, hm]⟩

/-- Characterisation of a successful groups fold: names appended in
declaration order, with no duplicate check. -/
theorem groupsFold_ok (parseGroup : GroupDef → Except Str OutboundGroup)
    (xs : List GroupDef) :
    ∀ (rv : HMap OutboundProxy) (names : List Str)
      (rv2 : HMap OutboundProxy) (names2 : List Str),
    groupsFold parseGroup xs rv names = .ok (rv2, names2) →
    names2 = names ++ declaredGroupNames parseGroup xs := by
  induction xs with
  | nil =>
    intro rv names rv2 names2 h
    simp only [groupsFold, Except.ok.injEq, Prod.mk.injEq] at h
    obtain ⟨h1, h2⟩ := h
    subst h2
    simp [declaredGroupNames]
  | cons m rest ih =>
    intro rv names rv2 names2 h
    rcases hp : parseGroup m with e | g
    · rcases hm : m.nameField with _ | name <;> simp [groupsFold, hp, hm] at h
    · simp only [groupsFold, hp] at h
      have h1 := ih _ _ _ _ h
      have hdecl : declaredGroupNames parseGroup (m :: rest) =
          (OutboundProxy.ProxyGroup g).name :: declaredGroupNames parseGroup rest := by
        simp [declaredGroupNames, hp, Except.toOption]
      rw [h1, hdecl]
      simp

/-- Inversion of a successful conversion: both folds succeeded, threading the
name list from the reserved pair through the proxies fold into the groups
fold, and the resulting maps and names are the ones stored in the Config. -/
theorem tryFrom_ok_inv (P : Parsers) (c : RawConfig) (cfg : Config)
    (h : tryFrom P c = .ok cfg) :
    ∃ pm names1 pg,
      proxiesFold P.parseProxy c.proxy initialProxies [PROXY_DIRECT, PROXY_REJECT] =
        .ok (pm, names1) ∧
      groupsFold P.parseGroup c.proxy_group [] names1 = .ok (pg, cfg.proxy_names) ∧
      cfg.proxies = pm ∧ cfg.proxy_groups = pg := by
  unfold tryFrom at h
  split at h
  · cases h
  · split at h
    · cases h
    · cases h
    · split at h
      · cases h
      · rename_i heq3
        split at h
        · cases h
        · rename_i heq4
          split at h
          · cases h
            exact ⟨_, _, _, heq3, heq4, rfl, rfl⟩
          · split at h
            · cases h
            · cases h
              exact ⟨_, _, _, heq3, heq4, rfl, rfl⟩

/-- When the rule list fails to collect, the conversion fails with the same
error. -/
theorem tryFrom_rules_err (P : Parsers) (c : RawConfig) (e : Error)
    (h : rulesOf P.parseRule c.rule = .error e) :
    tryFrom P c = .err e := by
  unfold tryFrom
  rw [h]

/-- When the rules parse but the proxies fold fails, the conversion fails with
the fold error. -/
theorem tryFrom_proxies_err (P : Parsers) (c : RawConfig) (e : Error)
    (hr : ∃ out, rulesOf P.parseRule c.rule = .ok out)
    (hx : proxiesFold P.parseProxy c.proxy initialProxies
      [PROXY_DIRECT, PROXY_REJECT] = .error e) :
    tryFrom P c = .err e := by
  obtain ⟨out, hout⟩ := hr
  obtain ⟨users, husers⟩ := usersOf_ok c.authentication
  unfold tryFrom
  rw [hout, husers, hx]

/-! API handler embedding (src/clash_lib/src/app/api/handlers/proxy.rs). -/

/-- Status 200 OK. -/
def STATUS_OK : Nat := 200

/-- Status 202 ACCEPTED. -/
def STATUS_ACCEPTED : Nat := 202

/-- Status 400 BAD_REQUEST. -/
def STATUS_BAD_REQUEST : Nat := 400

/-- Status 404 NOT_FOUND. -/
def STATUS_NOT_FOUND : Nat := 404

/-- Response body: a bare JSON number, a JSON object of numbers, or text. -/
inductive Body where
  | jsonNum (n : Nat)
  | jsonMap (m : HMap Nat)
  | text (s : Str)
deriving DecidableEq, Repr

/-- An HTTP response. -/
structure Response where
  status : Nat
  body : Body
deriving DecidableEq, Repr

/-- AnyOutboundHandler, opaque apart from its name. -/
structure AnyOutboundHandler where
  name : Str
deriving DecidableEq, Repr

/-- Message of the 404 answer of the lookup middleware. -/
def proxyNotFoundMsg (name : Str) : Str :=
  strOf "proxy " ++ name ++ strOf " not found"

/-- Middleware find_proxy_by_name: look the requested name up in the
registry; on success run the inner handler on the found proxy, otherwise
answer 404. The Bool records whether the inner handler ran. -/
def find_proxy_by_name (get_outbound : Str → Option AnyOutboundHandler)
    (name : Str) (next : AnyOutboundHandler → Response) : Response × Bool :=
  match get_outbound name with
  | some proxy => (next proxy, true)
  | none => (⟨STATUS_NOT_FOUND, .text (proxyNotFoundMsg name)⟩, false)

/-- Selection failure: the candidate is not a member of the group. -/
inductive SelectError where
  | NotAMember
deriving DecidableEq, Repr

/-- Displayed form of a selection failure. -/
def SelectError.display : SelectError → Str
  | .NotAMember => strOf "not a member"

/-- Modelled from the spec: a SelectorGroup (section 4.3) is an ordered
member-name list plus the active member; the selector implementation is
outside the inspected files. -/
structure SelectorGroup where
  members : List Str
  active : Str
deriving DecidableEq, Repr

/-- Modelled from the spec: select validates the candidate is a member; when
it is, active is swapped to it and the previous value returned; otherwise the
call fails with NotAMember leaving the state unchanged. -/
def SelectorGroup.select (g : SelectorGroup) (m : Str) :
    Except SelectError (Str × SelectorGroup) :=
  if m ∈ g.members then .ok (g.active, { g with active := m })
  else .error .NotAMember

/-- One registry call made by a handler. -/
inductive ApiEvent where
  | getSelectorControl (group : Str)
  | selectCall (group member : Str)
deriving DecidableEq, Repr

/-- Message of the 202 answer of update_proxy. -/
def selectedMsg (payload proxyName : Str) : Str :=
  strOf "selected proxy " ++ payload ++ strOf " for " ++ proxyName

/-- Message of the 400 answer of update_proxy. -/
def selectFailedMsg (payload proxyName errstr : Str) : Str :=
  strOf "select " ++ payload ++ strOf " for " ++ proxyName ++
    strOf " failed with error: " ++ errstr

/-- Message of the 404 answer of update_proxy. -/
def notASelectMsg (proxyName : Str) : Str :=
  strOf "proxy " ++ proxyName ++ strOf " is not a Select"

/-- Handler update_proxy: one selector-control retrieval for the target; when
it resolves, exactly one select call on the payload name, answering 202 on
success and 400 on failure; when it does not resolve, 404 with no select
call. The event list is the exact sequence of registry calls the handler
makes. -/
def update_proxy (get_selector_control : Str → Option SelectorGroup)
    (proxy : AnyOutboundHandler) (payloadName : Str) :
    Response × List ApiEvent :=
  match get_selector_control proxy.name with
  | some ctrl =>
    (match ctrl.select payloadName with
     | .ok _ => ⟨STATUS_ACCEPTED, .text (selectedMsg payloadName proxy.name)⟩
     | .error err =>
       ⟨STATUS_BAD_REQUEST,
        .text (selectFailedMsg payloadName proxy.name err.display)⟩,
     [.getSelectorControl proxy.name, .selectCall proxy.name payloadName])
  | none =>
    (⟨STATUS_NOT_FOUND, .text (notASelectMsg proxy.name)⟩,
     [.getSelectorControl proxy.name])

/-- Message of the 400 answer of get_proxy_delay. -/
def delayFailedMsg (name errstr : Str) : Str :=
  strOf "get delay for " ++ name ++ strOf " failed with error: " ++ errstr

/-- Handler get_proxy_delay, given the outcome of url_test (measured delay
and running mean delay). On success the source builds a map r holding delay
and meanDelay but serialises only the bare delay number; on failure it
answers 400. -/
def get_proxy_delay (urlTest : Except Str (Nat × Nat)) (name : Str) : Response :=
  match urlTest with
  | .ok (delay, mean_delay) =>
    let r : HMap Nat :=
      HMap.insert (HMap.insert [] (strOf "delay") delay) (strOf "meanDelay") mean_delay
    ⟨STATUS_OK, .jsonNum delay⟩
  | .error err => ⟨STATUS_BAD_REQUEST, .text (delayFailedMsg name err)⟩

/-! Concrete instances used by witnesses and counterexamples. -/

/-- Concrete parser instances: a proxy definition is its name; a group parses
iff its name field is present; rules and providers always parse. -/
def trivParsers : Parsers where
  parseProxy := fun x => .ok (.UserProtocol x)
  parseGroup := fun m =>
    match m.nameField with
    | some n => .ok ⟨n⟩
    | none => .error (strOf "missing name")
  parseRule := fun s => .ok ⟨s⟩
  parseProvider := fun b => .ok ⟨b⟩

/-- Parser instance whose rule parser rejects the empty rule string. -/
def emptyRuleFailParsers : Parsers :=
  { trivParsers with parseRule := fun s =>
      if s = [] then .error (strOf "empty rule") else .ok ⟨s⟩ }

/-- Parser instance whose provider parser always fails. -/
def providerFailParsers : Parsers :=
  { trivParsers with parseProvider := fun _ => .error (strOf "bad provider") }

/-- Configuration declaring only a group named DIRECT. -/
def cDupGroup : RawConfig := ⟨[], [], [], [⟨some PROXY_DIRECT, []⟩], none⟩

/-- Configuration declaring the backend a twice. -/
def cDupProxy : RawConfig := ⟨[], [], [strOf "a", strOf "a"], [], none⟩

/-- Configuration declaring nothing. -/
def cEmpty : RawConfig := ⟨[], [], [], [], none⟩

/-- Scenario configuration: backends us-1 and jp-1 and group auto. -/
def cScenario : RawConfig :=
  ⟨[], [], [strOf "us-1", strOf "jp-1"], [⟨some (strOf "auto"), []⟩], none⟩

/-- Configuration with one good rule and one empty (unparseable) rule. -/
def cBadRule : RawConfig := ⟨[strOf "MATCH", []], [], [], [], none⟩

/-- Configuration declaring one proxy provider. -/
def cBadProvider : RawConfig :=
  ⟨[], [], [], [], some [(strOf "prov", strOf "body")]⟩

/-- The normalized form of the empty configuration. -/
def cfgEmpty : Config :=
  ⟨[], [], [PROXY_DIRECT, PROXY_REJECT], initialProxies, [], []⟩

/-- The normalized form of the scenario configuration. -/
def cfgScenario : Config :=
  ⟨[], [],
   [PROXY_DIRECT, PROXY_REJECT, strOf "us-1", strOf "jp-1", strOf "auto"],
   [(PROXY_DIRECT, .ProxyServer .Direct), (PROXY_REJECT, .ProxyServer .Reject),
    (strOf "us-1", .ProxyServer (.UserProtocol (strOf "us-1"))),
    (strOf "jp-1", .ProxyServer (.UserProtocol (strOf "jp-1")))],
   [(strOf "auto", .ProxyGroup ⟨strOf "auto"⟩)], []⟩

/-- Registry exposing one selectable group g whose only member is a. -/
def gscSample : Str → Option SelectorGroup :=
  fun n => if n = strOf "g" then some ⟨[strOf "a"], strOf "a"⟩ else none

/-! Claim theorems. -/

/-- C1 counterexample: a configuration whose only declared entry is a group
named DIRECT is accepted by normalization, and the accepted ordered name list
DIRECT, REJECT, DIRECT is not pairwise distinct — no DuplicateName rejection
happens for groups. -/
theorem c1_counterexample_group_named_direct :
    tryFrom trivParsers cDupGroup =
      .ok ⟨[], [], [PROXY_DIRECT, PROXY_REJECT, PROXY_DIRECT],
        initialProxies, [(PROXY_DIRECT, .ProxyGroup ⟨PROXY_DIRECT⟩)], []⟩ ∧
    ¬ ([PROXY_DIRECT, PROXY_REJECT, PROXY_DIRECT] : List Str).Nodup :=
  ⟨by rfl, by decide⟩

/-- C1 (amended): in every accepted configuration the reserved names DIRECT
and REJECT and the user-declared single-backend names are pairwise distinct —
the contains_key check rejected every backend collision; user-declared group
names are inserted without any duplicate-name check and may collide (see the
counterexample). -/
theorem c1_amended_reserved_and_backend_names_distinct (P : Parsers)
    (c : RawConfig) (cfg : Config) (h : tryFrom P c = .ok cfg) :
    (PROXY_DIRECT :: PROXY_REJECT ::
      declaredProxyNames P.parseProxy c.proxy).Nodup := by
  obtain ⟨pm, names1, pg, hpx, hgr, hpm, hpg⟩ := tryFrom_ok_inv P c cfg h
  have hnd := proxiesFold_ok_names_nodup P.parseProxy c.proxy _ _ _ _ hpx (by decide)
  rw [initialProxies_keys] at hnd
  simpa using hnd

/-- Witness for the amended C1 theorem at the scenario configuration. -/
theorem c1_amended_witness :
    (PROXY_DIRECT :: PROXY_REJECT ::
      declaredProxyNames trivParsers.parseProxy cScenario.proxy).Nodup :=
  c1_amended_reserved_and_backend_names_distinct trivParsers cScenario
    cfgScenario (by rfl)

/-- C2: at a successful probe measuring delay 100 with running mean 150, the
handler responds 200 with the bare delay number; the meanDelay aggregate is
not part of the response. -/
theorem c2_delay_response_lacks_mean :
    get_proxy_delay (.ok (100, 150)) (strOf "us-1") =
      ⟨STATUS_OK, .jsonNum 100⟩ :=
  rfl

/-- C3: a configuration whose proxy provider fails to parse makes the
conversion panic through expect instead of returning an Err. -/
theorem c3_invalid_provider_panics :
    tryFrom providerFailParsers cBadProvider = .panicked providerPanicMsg :=
  rfl

/-- C4: in every accepted configuration the ordered name list is DIRECT,
REJECT, the user-declared backend names in declaration order, then the
user-declared group names in declaration order. -/
theorem c4_ordered_names (P : Parsers) (c : RawConfig) (cfg : Config)
    (h : tryFrom P c = .ok cfg) :
    cfg.proxy_names =
      PROXY_DIRECT :: PROXY_REJECT ::
        (declaredProxyNames P.parseProxy c.proxy ++
          declaredGroupNames P.parseGroup c.proxy_group) := by
  obtain ⟨pm, names1, pg, hpx, hgr, hpm, hpg⟩ := tryFrom_ok_inv P c cfg h
  obtain ⟨h1, h2, h3⟩ := proxiesFold_ok P.parseProxy c.proxy _ _ _ _ hpx
  have h4 := groupsFold_ok P.parseGroup c.proxy_group _ _ _ _ hgr
  rw [h4, h1]
  simp

/-- Witness: C4 applied at the scenario configuration. -/
theorem c4_witness :
    cfgScenario.proxy_names =
      PROXY_DIRECT :: PROXY_REJECT ::
        (declaredProxyNames trivParsers.parseProxy cScenario.proxy ++
          declaredGroupNames trivParsers.parseGroup cScenario.proxy_group) :=
  c4_ordered_names trivParsers cScenario cfgScenario (by rfl)

/-- C5: when every rule and every proxy entry parses but the backend names
collide with an already-accepted name (the two reserved names included), the
conversion fails with the duplicated-name error, producing no Config. -/
theorem c5_duplicate_backend_rejected (P : Parsers) (c : RawConfig)
    (hrules : ∀ r ∈ c.rule, (P.parseRule r).isOk)
    (hpx : ∀ x ∈ c.proxy, (P.parseProxy x).isOk)
    (hdup : ¬ (PROXY_DIRECT :: PROXY_REJECT ::
      declaredProxyNames P.parseProxy c.proxy).Nodup) :
    ∃ n, tryFrom P c = .err (.InvalidConfig (duplicatedProxyNameMsg n)) := by
  have hdup2 : ¬ (HMap.keys initialProxies ++
      declaredProxyNames P.parseProxy c.proxy).Nodup := by
    rw [initialProxies_keys]
    simpa using hdup
  obtain ⟨n, hn⟩ := proxiesFold_dup P.parseProxy c.proxy initialProxies
    [PROXY_DIRECT, PROXY_REJECT] hpx (by decide) hdup2
  exact ⟨n, tryFrom_proxies_err P c _ (rulesOf_ok P.parseRule c.rule hrules) hn⟩

/-- Witness: C5 applied at a configuration declaring the backend a twice. -/
theorem c5_witness :
    ∃ n, tryFrom trivParsers cDupProxy =
      .err (.InvalidConfig (duplicatedProxyNameMsg n)) :=
  c5_duplicate_backend_rejected trivParsers cDupProxy
    (by intro r hr; cases hr) (by intro x hx; rfl) (by decide)

/-- C6: a configuration with a rule string that fails to parse is rejected as
a whole: the conversion returns the InvalidConfig wrapping of the parse error
of a failing rule, and no Config is produced. -/
theorem c6_invalid_rule_rejects (P : Parsers) (c : RawConfig) (r : Str)
    (hr : r ∈ c.rule) (he : ¬ (P.parseRule r).isOk) :
    ∃ bad e, bad ∈ c.rule ∧ P.parseRule bad = .error e ∧
      tryFrom P c = .err (.InvalidConfig e) := by
  obtain ⟨bad, e, hmem, hbe, hre⟩ := rulesOf_err P.parseRule c.rule r hr he
  exact ⟨bad, e, hmem, hbe, tryFrom_rules_err P c _ hre⟩

/-- Witness: C6 applied at a configuration with one unparseable rule. -/
theorem c6_witness :
    ∃ bad e, bad ∈ cBadRule.rule ∧
      emptyRuleFailParsers.parseRule bad = .error e ∧
      tryFrom emptyRuleFailParsers cBadRule = .err (.InvalidConfig e) :=
  c6_invalid_rule_rejects emptyRuleFailParsers cBadRule [] (by decide) (by decide)

/-- C7: normalizing a configuration declaring no backends and no groups
yields exactly the two reserved entries, DIRECT mapped to the direct
pseudo-backend and REJECT to the reject pseudo-backend, and no groups. -/
theorem c7_reserved_only (P : Parsers) (c : RawConfig) (cfg : Config)
    (hp : c.proxy = []) (hg : c.proxy_group = [])
    (h : tryFrom P c = .ok cfg) :
    cfg.proxies = [(PROXY_DIRECT, .ProxyServer .Direct),
      (PROXY_REJECT, .ProxyServer .Reject)] ∧
    cfg.proxy_groups = [] := by
  obtain ⟨pm, names1, pg, hpx, hgr, hpm, hpg⟩ := tryFrom_ok_inv P c cfg h
  rw [hp] at hpx
  rw [hg] at hgr
  simp only [proxiesFold, Except.ok.injEq, Prod.mk.injEq] at hpx
  simp only [groupsFold, Except.ok.injEq, Prod.mk.injEq] at hgr
  rw [hpm, hpg, ← hpx.1, ← hgr.1]
  exact ⟨rfl, rfl⟩

/-- Witness: C7 applied at the empty configuration. -/
theorem c7_witness :
    cfgEmpty.proxies = [(PROXY_DIRECT, .ProxyServer .Direct),
      (PROXY_REJECT, .ProxyServer .Reject)] ∧
    cfgEmpty.proxy_groups = [] :=
  c7_reserved_only trivParsers cEmpty cfgEmpty rfl rfl (by rfl)

/-- C8: update_proxy makes exactly one selector-control retrieval for the
target, followed by exactly one select call when and only when the control
resolves; a select failure answers 400 with no retry, and a non-selectable
target answers 404 without select ever being called. -/
theorem c8_update_proxy_protocol (gsc : Str → Option SelectorGroup)
    (proxy : AnyOutboundHandler) (m : Str) :
    (∀ ctrl, gsc proxy.name = some ctrl →
      (update_proxy gsc proxy m).2 =
        [.getSelectorControl proxy.name, .selectCall proxy.name m] ∧
      (m ∉ ctrl.members →
        (update_proxy gsc proxy m).1 = ⟨STATUS_BAD_REQUEST,
          .text (selectFailedMsg m proxy.name SelectError.NotAMember.display)⟩)) ∧
    (gsc proxy.name = none →
      (update_proxy gsc proxy m).2 = [.getSelectorControl proxy.name] ∧
      (update_proxy gsc proxy m).1 =
        ⟨STATUS_NOT_FOUND, .text (notASelectMsg proxy.name)⟩) := by
  constructor
  · intro ctrl hctrl
    constructor
    · simp [update_proxy, hctrl]
    · intro hmem
      simp [update_proxy, hctrl, SelectorGroup.select, hmem, SelectError.display]
  · intro hnone
    exact ⟨by simp [update_proxy, hnone], by simp [update_proxy, hnone]⟩

/-- Witness: C8 applied to a registry with one selectable group g over member
a, once with the selectable target and a non-member candidate, once with an
unknown target. -/
theorem c8_witness :
    (update_proxy gscSample ⟨strOf "g"⟩ (strOf "x")).2 =
      [.getSelectorControl (strOf "g"), .selectCall (strOf "g") (strOf "x")] ∧
    (update_proxy gscSample ⟨strOf "g"⟩ (strOf "x")).1 = ⟨STATUS_BAD_REQUEST,
      .text (selectFailedMsg (strOf "x") (strOf "g")
        SelectError.NotAMember.display)⟩ ∧
    (update_proxy gscSample ⟨strOf "h"⟩ (strOf "x")).2 =
      [.getSelectorControl (strOf "h")] := by
  obtain ⟨h1, h2⟩ := (c8_update_proxy_protocol gscSample ⟨strOf "g"⟩ (strOf "x")).1
    ⟨[strOf "a"], strOf "a"⟩ (by decide)
  exact ⟨h1, h2 (by decide),
    ((c8_update_proxy_protocol gscSample ⟨strOf "h"⟩ (strOf "x")).2 (by decide)).1⟩

/-- C9: a request addressing a name the registry lookup does not resolve is
answered 404 and the inner per-proxy handler never runs. -/
theorem c9_unknown_name_not_found (get_outbound : Str → Option AnyOutboundHandler)
    (name : Str) (next : AnyOutboundHandler → Response)
    (h : get_outbound name = none) :
    find_proxy_by_name get_outbound name next =
      (⟨STATUS_NOT_FOUND, .text (proxyNotFoundMsg name)⟩, false) := by
  simp [find_proxy_by_name, h]

/-- Witness: C9 applied at an empty registry. -/
theorem c9_witness :
    find_proxy_by_name (fun _ => none) (strOf "nope")
      (fun p => ⟨STATUS_OK, .jsonNum 0⟩) =
      (⟨STATUS_NOT_FOUND, .text (proxyNotFoundMsg (strOf "nope"))⟩, false) :=
  c9_unknown_name_not_found (fun _ => none) (strOf "nope")
    (fun p => ⟨STATUS_OK, .jsonNum 0⟩) rfl

/-- C10: every entry of the authentication list parses into a credential
whose username is the text before the first colon (the whole entry when there
is none) and whose password is the text after it (empty when there is none);
the parse never fails or panics. -/
theorem c10_authentication_parsing (auth : List Str) :
    usersOf auth = .ok (auth.map (fun u =>
      ⟨u.takeWhile (fun ch => ch ≠ ':'),
       (u.dropWhile (fun ch => ch ≠ ':')).drop 1⟩)) := by
  induction auth with
  | nil => rfl
  | cons u rest ih => simp [usersOf, parseUser_eq u, ih]

end ClashRs
